import Mathlib

/-
  Verification development for the `web-crawler` repository (Python).

  Shallow embedding conventions:
  * Python `str` values are modeled as `List Char`.
  * Python `dict` values (insertion-ordered) are modeled as association
    lists; `dictSet` reproduces `d[k] = v` (overwrite in place, append if
    new) and `dictSetIfAbsent` reproduces the guarded
    `if k not in d: d[k] = v` pattern.
  * Network responses, fetched page markup and timestamps are external
    inputs of the embedded functions: an HTTP attempt outcome is a
    parameter, `none` standing for a raised exception.
  * File-system effects of the persistence code are modeled as explicit
    operation lists over an association-list file system.
-/

namespace WebCrawler

/-! ### Python string primitives -/

/-- Python `str.lower()` (ASCII case folding, which is all the sources use). -/
def pyLower (s : List Char) : List Char := s.map Char.toLower

/-- Python `str.strip()`: drop whitespace from both ends. -/
def pyStrip (s : List Char) : List Char :=
  ((s.dropWhile Char.isWhitespace).reverse.dropWhile Char.isWhitespace).reverse

/-- Python `s.startswith(p)`. -/
def py_startswith : List Char → List Char → Bool
  | [], _ => true
  | _ :: _, [] => false
  | p :: ps, c :: cs => p == c && py_startswith ps cs

/-- Python `s.endswith(p)`. -/
def py_endswith (p s : List Char) : Bool :=
  py_startswith p.reverse s.reverse

/-- Python `needle in hay` (substring containment). -/
def py_contains (needle : List Char) : List Char → Bool
  | [] => needle.isEmpty
  | c :: cs => py_startswith needle (c :: cs) || py_contains needle cs

/-! ### Association lists standing for Python dicts -/

/-- `k in d` / `d.get(k)`: lookup by key. -/
def dictGet {α β : Type} [DecidableEq α] : List (α × β) → α → Option β
  | [], _ => none
  | (k', v) :: rest, k => if k' = k then some v else dictGet rest k

/-- `d[k] = v`: overwrite in place if the key exists, append otherwise
(Python dicts keep the original insertion position on overwrite). -/
def dictSet {α β : Type} [DecidableEq α] : List (α × β) → α → β → List (α × β)
  | [], k, v => [(k, v)]
  | (k', v') :: rest, k, v =>
    if k' = k then (k', v) :: rest else (k', v') :: dictSet rest k v

/-- The guarded insertion pattern `if k not in d: d[k] = v`. -/
def dictSetIfAbsent {α β : Type} [DecidableEq α] (d : List (α × β)) (k : α) (v : β) :
    List (α × β) :=
  match dictGet d k with
  | some _ => d
  | none => d ++ [(k, v)]

/-- Key removal (used to model the source file disappearing on a rename). -/
def dictRemove {α β : Type} [DecidableEq α] : List (α × β) → α → List (α × β)
  | [], _ => []
  | (k', v) :: rest, k =>
    if k' = k then dictRemove rest k else (k', v) :: dictRemove rest k

/-! ### `urllib.parse.urlparse`, restricted to the components the sources
read (`scheme`, `netloc`, `path`).

Faithful to CPython's `urlsplit`: the scheme is split off at the first
`:` when the prefix before it is non-empty, starts with an ASCII letter
and consists of letters, digits and `+`/`-`/`.` (and is lower-cased);
the netloc follows a literal `//` and runs to the first `/`, `?` or `#`;
an unbalanced `[`/`]` in the netloc raises `ValueError`, modeled as
`none`; the path is the remainder up to the first `?` or `#`.
(Parameter splitting at `;` is not modeled; no embedded input uses it.) -/

structure ParseResult where
  scheme : List Char
  netloc : List Char
  path : List Char
deriving DecidableEq

/-- Characters allowed in a URL scheme. -/
def schemeChar (c : Char) : Bool := c.isAlphanum || c == '+' || c == '-' || c == '.'

/-- Split a leading `scheme:` off the URL, CPython-style. -/
def splitScheme (url : List Char) : List Char × List Char :=
  let pre := url.takeWhile (fun c => c != ':')
  if pre.length < url.length && !pre.isEmpty &&
      (match pre.head? with | some c => c.isAlpha | none => false) &&
      pre.all schemeChar then
    (pyLower pre, url.drop (pre.length + 1))
  else
    ([], url)

/-- Split a `//netloc` off the remainder; `none` models the `ValueError`
CPython raises on an unbalanced IPv6 bracket in the netloc. -/
def splitNetloc (rest : List Char) : Option (List Char × List Char) :=
  if rest.take 2 = ['/', '/'] then
    let nl := (rest.drop 2).takeWhile (fun c => c != '/' && c != '?' && c != '#')
    if (nl.contains '[' && !nl.contains ']') || (nl.contains ']' && !nl.contains '[') then
      none
    else
      some (nl, (rest.drop 2).drop nl.length)
  else
    some ([], rest)

def urlparse (url : List Char) : Option ParseResult :=
  let sr := splitScheme url
  match splitNetloc sr.2 with
  | none => none
  | some (netloc, rest2) =>
    some { scheme := sr.1, netloc := netloc,
           path := rest2.takeWhile (fun c => c != '#' && c != '?') }

/-! ### URL classifier functions.

`is_valid_url`, `is_rw_domain`, `normalize_domain` and `extract_domain`
below are the versions shared verbatim by `crawler.py` (lines 47-88) and
`crawlers/rw_crawler.py` (lines 99-131); `rw_crawler.py` differs only in
`normalize_domain` (it also lower-cases), embedded in the `RwCrawler`
namespace, and `crawler/crawler.py` has its own `is_valid_url`, embedded
in the `CrawlerPkg` namespace. -/

/-- `crawler.py` 47-58: `bool(netloc) and bool(scheme) and scheme in ['http','https']`;
the `except` clause turns a parse error into `False`. -/
def is_valid_url (url : List Char) : Bool :=
  match urlparse url with
  | none => false
  | some p =>
      !p.netloc.isEmpty && !p.scheme.isEmpty &&
        (p.scheme == "http".data || p.scheme == "https".data)

/-- `crawler.py` 60-69: the lower-cased netloc ends with `.rw`. -/
def is_rw_domain (url : List Char) : Bool :=
  match urlparse url with
  | none => false
  | some p => py_endswith ".rw".data (pyLower p.netloc)

/-- `crawler.py` 71-77 / `crawlers/rw_crawler.py` 118-122:
strip one leading `www.` literal prefix. -/
def normalize_domain (d : List Char) : List Char :=
  if py_startswith "www.".data d then d.drop 4 else d

/-- `crawler.py` 79-88: lower-cased netloc, normalized; parse error gives `None`. -/
def extract_domain (url : List Char) : Option (List Char) :=
  match urlparse url with
  | none => none
  | some p => some (normalize_domain (pyLower p.netloc))

namespace RwCrawler

/-- `rw_crawler.py` 202-210: `normalize_domain` there additionally
lower-cases, and passes a falsy (empty) domain through unchanged. -/
def normalize_domain (d : List Char) : List Char :=
  if d.isEmpty then d
  else
    let d' := pyLower d
    if py_startswith "www.".data d' then d'.drop 4 else d'

/-- `rw_crawler.py` 212-228. -/
def extract_domain (url : List Char) : Option (List Char) :=
  match urlparse url with
  | none => none
  | some p => some (normalize_domain (pyLower p.netloc))

end RwCrawler

namespace CrawlerPkg

/-- `crawler/crawler.py` 145-147: the skip-listed non-document extensions. -/
def skip_extensions : List (List Char) :=
  [".pdf".data, ".jpg".data, ".jpeg".data, ".png".data, ".gif".data, ".svg".data,
   ".css".data, ".js".data, ".xml".data, ".json".data, ".zip".data, ".doc".data,
   ".docx".data, ".ppt".data, ".pptx".data, ".xls".data, ".xlsx".data]

/-- `crawler/crawler.py` 135-153: scheme must be http/https and the
lower-cased path must not end in a skip-listed extension; there is no
check on the netloc. `except` turns a parse error into `False`. -/
def is_valid_url (url : List Char) : Bool :=
  match urlparse url with
  | none => false
  | some p =>
    if !(p.scheme == "http".data || p.scheme == "https".data) then false
    else if skip_extensions.any (fun ext => py_endswith ext (pyLower p.path)) then false
    else true

end CrawlerPkg

/-! ### Politeness gate: `crawlers/rw_crawler.py` `check_robots_txt` 133-157.

The HTTP fetch of `https://{domain}/robots.txt` is an external input:
`none` models a raised exception (any network failure), `some (status,
body)` a completed response. The function returns the decision together
with the updated per-domain cache. -/

def check_robots_txt (respect_robots : Bool) (cache : List (List Char × Bool))
    (domain : List Char) (fetch : Option (Nat × List Char)) :
    Bool × List (List Char × Bool) :=
  if !respect_robots then (true, cache)
  else
    match dictGet cache domain with
    | some b => (b, cache)
    | none =>
      match fetch with
      | none => (true, dictSet cache domain true)
      | some (status, body) =>
        if status == 200 && py_contains "User-agent: *".data body &&
            py_contains "Disallow: /".data body then
          (false, dictSet cache domain false)
        else
          (true, dictSet cache domain true)

/-! ### Fetcher: `crawlers/rw_crawler.py` `get_page_content` 159-194.

Each loop iteration performs one HTTP attempt; the outcomes of the
successive attempts are an external input list, consumed one per
iteration. `FetchAttempt.failure` models a raised exception (transport
error); sleeps do not affect the result and are not modeled. The
function returns the content (`none` for the `return None` paths) and
the number of attempts actually performed. -/

inductive FetchAttempt where
  | response (status : Nat) (body : List Char)
  | failure
deriving DecidableEq

def get_page_content_go : Nat → List FetchAttempt → Option (List Char) × Nat
  | 0, _ => (none, 0)
  | _ + 1, [] => (none, 0)
  | n + 1, a :: rest =>
    match a with
    | .response status body =>
      if status == 200 then (some body, 1)
      else if status == 429 then
        let r := get_page_content_go n rest
        (r.1, r.2 + 1)
      else (none, 1)
    | .failure =>
      let r := get_page_content_go n rest
      (r.1, r.2 + 1)

def get_page_content (attempts : List FetchAttempt) (retries : Nat) : Option (List Char) :=
  (get_page_content_go retries attempts).1

def get_page_content_attempts (attempts : List FetchAttempt) (retries : Nat) : Nat :=
  (get_page_content_go retries attempts).2

/-! ### Frontier batch selection.

`crawlers/rw_crawler.py` `process_url_queue` 589-612: one round of the
`for _ in range(batch_size)` loop. Each iteration pops one `(url,
depth)` pair from the left of the deque; items that are already
visited, invalid, non-`.rw` or at `depth >= max_depth` are dropped
(`continue`), accepted items enter the batch and the visited set.
Returns `(batch, remaining queue, visited)`. -/

def pop_batch (max_depth : Nat) :
    Nat → List (List Char × Nat) → List (List Char) →
      List (List Char × Nat) × List (List Char × Nat) × List (List Char)
  | 0, q, visited => ([], q, visited)
  | _ + 1, [], visited => ([], [], visited)
  | n + 1, (url, depth) :: rest, visited =>
    if url ∈ visited then pop_batch max_depth n rest visited
    else if is_valid_url url = false then pop_batch max_depth n rest visited
    else if is_rw_domain url = false then pop_batch max_depth n rest visited
    else if max_depth ≤ depth then pop_batch max_depth n rest visited
    else
      let r := pop_batch max_depth n rest (url :: visited)
      ((url, depth) :: r.1, r.2.1, r.2.2)

namespace RwCrawler

/-- `rw_crawler.py` `crawl` 294-299: batch selection there filters only
on the visited set and URL validity — no depth and no `.rw` check. -/
def pop_batch :
    Nat → List (List Char × Nat) → List (List Char) →
      List (List Char × Nat) × List (List Char × Nat) × List (List Char)
  | 0, q, visited => ([], q, visited)
  | _ + 1, [], visited => ([], [], visited)
  | n + 1, (url, depth) :: rest, visited =>
    if url ∉ visited ∧ is_valid_url url = true then
      let r := pop_batch n rest (url :: visited)
      ((url, depth) :: r.1, r.2.1, r.2.2)
    else
      pop_batch n rest visited

/-- `rw_crawler.py` `process_url` 379-382: extracted links are enqueued
at `depth + 1` only when `depth < max_depth`. -/
def enqueue_children (max_depth depth : Nat) (new_urls : List (List Char))
    (visited : List (List Char)) (q : List (List Char × Nat)) :
    List (List Char × Nat) :=
  if depth < max_depth then
    q ++ (new_urls.filter
            (fun u => !visited.contains u && is_valid_url u)).map (fun u => (u, depth + 1))
  else q

end RwCrawler

/-! ### Extractor: `rw_crawler.py` `extract_page_info` 230-254.

The parsed markup is abstracted to the query results the function
reads: the text of the `<title>` tag (`none` if there is no such tag),
the `content` attribute of the description/keywords `<meta>` tags
(`none` if the tag or the attribute is missing), and the text of each
`<h1>`. A field enters the result only when its source is present and
truthy (non-empty). -/

structure PageSoup where
  title : Option (List Char)
  metaDescription : Option (List Char)
  metaKeywords : Option (List Char)
  h1s : List (List Char)
deriving DecidableEq

structure PageInfo where
  title : Option (List Char)
  description : Option (List Char)
  keywords : Option (List Char)
  h1_tags : Option (List (List Char))
deriving DecidableEq

def extract_page_info (_url : List Char) (soup : PageSoup) : PageInfo :=
  { title :=
      match soup.title with
      | some t => if t.isEmpty then none else some (pyStrip t)
      | none => none,
    description :=
      match soup.metaDescription with
      | some c => if c.isEmpty then none else some (pyStrip c)
      | none => none,
    keywords :=
      match soup.metaKeywords with
      | some c => if c.isEmpty then none else some (pyStrip c)
      | none => none,
    h1_tags :=
      if soup.h1s.isEmpty then none
      else some ((soup.h1s.map pyStrip).filter (fun h => !h.isEmpty)) }

/-- `crawlers/rw_crawler.py` 215: `title = soup.title.string if soup.title
else "Unknown"` — the page title used in the catalog record, defaulting
to the placeholder `"Unknown"` when the page has no title. -/
def crawl_page_title (soupTitle : Option (List Char)) : List Char :=
  match soupTitle with
  | some t => t
  | none => "Unknown".data

/-! ### Domain catalog and the discovery operations that insert into it.

`DomainRecord` covers the fields any of the insertion sites writes;
fields a site does not write are `none`. The catalog (`domain_data`) is
an insertion-ordered dict keyed by normalized domain. Each constructor
of `DiscoveryOp` is one insertion site, carrying the external inputs of
that site (the fetched page's title, `datetime.now()` as `ts`). -/

structure DomainRecord where
  domain : List Char
  url : List Char
  title : Option (List Char)
  description : Option (List Char)
  keywords : Option (List Char)
  h1_tags : Option (List (List Char))
  discovered_at : Option (List Char)
deriving DecidableEq

abbrev Catalog := List (List Char × DomainRecord)

inductive DiscoveryOp where
  /-- `crawlers/rw_crawler.py` `extract_urls_from_page` 218-230 (seed crawl). -/
  | crawlPage (url : List Char) (soupTitle : Option (List Char)) (ts : List Char)
  /-- `crawlers/rw_crawler.py` `try_certificate_transparency_logs` 320-331. -/
  | ctLog (domain : List Char) (ts : List Char)
  /-- `crawlers/rw_crawler.py` `process_common_subdomain_patterns` 386-397. -/
  | subdomain (domain : List Char) (ts : List Char)
  /-- `crawlers/rw_crawler.py` `dns_zone_transfer` 276-288. -/
  | zoneTransfer (domain : List Char) (ts : List Char)
  /-- `rw_crawler.py` `process_url` 385-400. -/
  | processUrl (url : List Char) (soup : PageSoup)
deriving DecidableEq

def DiscoveryOp.isZoneTransfer : DiscoveryOp → Bool
  | .zoneTransfer _ _ => true
  | _ => false

/-- The record built by `dns_zone_transfer` 280-285. -/
def zone_transfer_record (domain ts : List Char) : DomainRecord :=
  { domain := normalize_domain domain, url := "http://".data ++ domain,
    title := some "Found via DNS zone transfer".data,
    description := none, keywords := none, h1_tags := none,
    discovered_at := some ts }

def stepDiscovery (cat : Catalog) : DiscoveryOp → Catalog
  | .crawlPage url soupTitle ts =>
    -- guarded by `if self.is_rw_domain(url)`; `domain = self.extract_domain(url)`
    -- was computed before, and the site normalizes it a second time.
    if is_rw_domain url then
      match extract_domain url with
      | none => cat
      | some domain =>
        let nd := normalize_domain domain
        dictSetIfAbsent cat nd
          { domain := nd, url := url, title := some (crawl_page_title soupTitle),
            description := none, keywords := none, h1_tags := none,
            discovered_at := some ts }
    else cat
  | .ctLog domain ts =>
    let nd := normalize_domain domain
    dictSetIfAbsent cat nd
      { domain := nd, url := "https://".data ++ domain,
        title := some "Found via Certificate Transparency logs".data,
        description := none, keywords := none, h1_tags := none,
        discovered_at := some ts }
  | .subdomain domain ts =>
    let nd := normalize_domain domain
    dictSetIfAbsent cat nd
      { domain := nd, url := "https://".data ++ domain,
        title := some "Found via subdomain enumeration".data,
        description := none, keywords := none, h1_tags := none,
        discovered_at := some ts }
  | .zoneTransfer domain ts =>
    -- `if domain.endswith('.rw')`: then `self.domain_data[normalized_domain]
    -- = domain_data` — an UNGUARDED dict assignment (lines 278-286).
    if py_endswith ".rw".data domain then
      dictSet cat (normalize_domain domain) (zone_transfer_record domain ts)
    else cat
  | .processUrl url soup =>
    -- `rw_crawler.py` 386-400: guarded insert of `{'domain', 'url'}`
    -- updated with the extracted page info.
    if is_rw_domain url then
      match RwCrawler.extract_domain url with
      | none => cat
      | some domain =>
        let nd := RwCrawler.normalize_domain domain
        let info := extract_page_info url soup
        dictSetIfAbsent cat nd
          { domain := nd, url := url, title := info.title,
            description := info.description, keywords := info.keywords,
            h1_tags := info.h1_tags, discovered_at := none }
    else cat

def runDiscovery (ops : List DiscoveryOp) : Catalog :=
  ops.foldl stepDiscovery []

/-! ### Result store: the file-system effects of the persistence code.

`save_results` (`rw_crawler.py` 966-975, `crawler.py` 348-349) and the
write step of `save_single_domain` (`crawlers/rw_crawler.py` 775-776)
all persist via `with open(path, 'w') ...: json.dump(...)`: opening
with mode `'w'` truncates the target in place, then the serialized
document is written. There is no temporary path and no rename anywhere
in the sources. -/

inductive FsOp where
  /-- `open(path, 'w')`: create/truncate the file at `path`. -/
  | truncate (path : List Char)
  /-- `json.dump(data, file)`: write the serialized document. -/
  | writeAll (path : List Char) (data : List Char)
  /-- `os.replace(src, dst)`-style atomic rename (never used by the sources). -/
  | rename (src dst : List Char)
deriving DecidableEq

abbrev FsState := List (List Char × List Char)

def applyFsOp (fs : FsState) : FsOp → FsState
  | .truncate p => dictSet fs p []
  | .writeAll p d => dictSet fs p d
  | .rename s t =>
    match dictGet fs s with
    | none => fs
    | some d => dictRemove (dictSet fs t d) s

def runFsOps (fs : FsState) (ops : List FsOp) : FsState :=
  ops.foldl applyFsOp fs

/-- The file operations one flush of `save_results` performs on the
target document (truncate in place, then write the new serialization). -/
def save_results_ops (target doc : List Char) : List FsOp :=
  [.truncate target, .writeAll target doc]

/-- Modelled from the spec: the atomic persistence scheme the spec
prescribes ("stage to a temporary path, then rename over the target"),
which is absent from the sources — stated here only to contrast with
`save_results_ops`. -/
def atomic_save_ops (tmp target doc : List Char) : List FsOp :=
  [.writeAll tmp doc, .rename tmp target]

/-! ## Helper lemmas -/

theorem dictGet_dictSet {α β : Type} [DecidableEq α] (d : List (α × β)) (k : α) (v : β) :
    dictGet (dictSet d k v) k = some v := by
  induction d with
  | nil => simp [dictSet, dictGet]
  | cons hd rest ih =>
    obtain ⟨k', v'⟩ := hd
    by_cases h : k' = k
    · subst h; simp [dictSet, dictGet]
    · simp [dictSet, dictGet, h, ih]

theorem dictGet_dictSet_ne {α β : Type} [DecidableEq α] (d : List (α × β)) {k j : α} (v : β)
    (h : j ≠ k) : dictGet (dictSet d k v) j = dictGet d j := by
  induction d with
  | nil => simp [dictSet, dictGet, Ne.symm h]
  | cons hd rest ih =>
    obtain ⟨k', v'⟩ := hd
    by_cases hk : k' = k
    · subst hk; simp [dictSet, dictGet, Ne.symm h]
    · simp only [dictSet, if_neg hk]
      by_cases hj : k' = j
      · simp [dictGet, hj]
      · simp [dictGet, hj, ih]

theorem dictGet_dictRemove_ne {α β : Type} [DecidableEq α] (d : List (α × β)) {k j : α}
    (h : j ≠ k) : dictGet (dictRemove d k) j = dictGet d j := by
  induction d with
  | nil => simp [dictRemove]
  | cons hd rest ih =>
    obtain ⟨k', v'⟩ := hd
    by_cases hk : k' = k
    · subst hk; simp [dictRemove, dictGet, Ne.symm h, ih]
    · simp only [dictRemove, if_neg hk]
      by_cases hj : k' = j
      · simp [dictGet, hj]
      · simp [dictGet, hj, ih]

theorem dictGet_append_some {α β : Type} [DecidableEq α] {d : List (α × β)} {k : α} {v : β}
    (e : List (α × β)) (h : dictGet d k = some v) : dictGet (d ++ e) k = some v := by
  induction d with
  | nil => simp [dictGet] at h
  | cons hd rest ih =>
    obtain ⟨k', v'⟩ := hd
    by_cases hk : k' = k
    · simp_all [dictGet]
    · simp only [dictGet, if_neg hk] at h
      simpa [dictGet, hk] using ih h

theorem dictGet_setIfAbsent_some {α β : Type} [DecidableEq α] {d : List (α × β)} {k : α}
    {v : β} (j : α) (w : β) (h : dictGet d k = some v) :
    dictGet (dictSetIfAbsent d j w) k = some v := by
  unfold dictSetIfAbsent
  cases hj : dictGet d j with
  | some _ => exact h
  | none => exact dictGet_append_some _ h

theorem mem_dictSet {α β : Type} [DecidableEq α] {d : List (α × β)} {k : α} {v : β}
    {kv : α × β} (h : kv ∈ dictSet d k v) : kv ∈ d ∨ kv = (k, v) := by
  induction d with
  | nil => simp [dictSet] at h; right; exact h
  | cons hd rest ih =>
    obtain ⟨k', v'⟩ := hd
    by_cases hk : k' = k
    · subst hk
      simp only [dictSet, if_pos rfl] at h
      rcases List.mem_cons.mp h with h | h
      · right; exact h
      · left; exact List.mem_cons_of_mem _ h
    · simp only [dictSet, if_neg hk] at h
      rcases List.mem_cons.mp h with h | h
      · left; exact h ▸ List.mem_cons_self _ _
      · rcases ih h with h | h
        · left; exact List.mem_cons_of_mem _ h
        · right; exact h

theorem mem_dictSetIfAbsent {α β : Type} [DecidableEq α] {d : List (α × β)} {k : α} {v : β}
    {kv : α × β} (h : kv ∈ dictSetIfAbsent d k v) : kv ∈ d ∨ kv = (k, v) := by
  unfold dictSetIfAbsent at h
  cases hj : dictGet d k with
  | some _ => rw [hj] at h; left; exact h
  | none =>
    rw [hj] at h
    rcases List.mem_append.mp h with h | h
    · left; exact h
    · right; simpa using h

theorem py_startswith_iff (p : List Char) :
    ∀ s : List Char, py_startswith p s = true ↔ ∃ t, s = p ++ t := by
  induction p with
  | nil => intro s; simp [py_startswith]
  | cons a as ih =>
    intro s
    cases s with
    | nil => simp [py_startswith]
    | cons b bs =>
      simp only [py_startswith, Bool.and_eq_true, beq_iff_eq, ih, List.cons_append,
        List.cons.injEq]
      constructor
      · rintro ⟨rfl, t, rfl⟩; exact ⟨t, rfl, rfl⟩
      · rintro ⟨t, rfl, rfl⟩; exact ⟨rfl, t, rfl⟩

theorem py_contains_iff (n : List Char) :
    ∀ h : List Char, py_contains n h = true ↔ ∃ pre post, h = pre ++ n ++ post := by
  intro h
  induction h with
  | nil =>
    cases n <;> simp [py_contains, List.isEmpty]
  | cons c cs ih =>
    simp only [py_contains, Bool.or_eq_true, ih]
    constructor
    · rintro (hs | ⟨pre, post, rfl⟩)
      · obtain ⟨t, ht⟩ := (py_startswith_iff n (c :: cs)).mp hs
        exact ⟨[], t, by simpa using ht⟩
      · exact ⟨c :: pre, post, rfl⟩
    · rintro ⟨pre, post, hp⟩
      cases pre with
      | nil =>
        left
        exact (py_startswith_iff n (c :: cs)).mpr ⟨post, by simpa using hp⟩
      | cons p ps =>
        right
        rcases List.cons.injEq .. ▸ hp with ⟨rfl, h2⟩
        exact ⟨ps, post, by simpa using h2⟩

theorem toLower_not_upper (d : Char) (hd : ¬(d.toNat ≥ 65 ∧ d.toNat ≤ 90)) :
    d.toLower = d := by
  unfold Char.toLower
  rw [if_neg hd]

theorem char_toLower_idem (c : Char) : c.toLower.toLower = c.toLower := by
  by_cases h : c.toNat ≥ 65 ∧ c.toNat ≤ 90
  · have hlow : c.toLower = Char.ofNat (c.toNat + 32) := by
      unfold Char.toLower; rw [if_pos h]
    have hvalid : (c.toNat + 32).isValidChar := Or.inl (by omega)
    have hval : (Char.ofNat (c.toNat + 32)).toNat = c.toNat + 32 := by
      unfold Char.ofNat
      rw [dif_pos hvalid]
      rfl
    rw [hlow]
    apply toLower_not_upper
    rw [hval]
    omega
  · rw [toLower_not_upper c h]
    exact toLower_not_upper c h

/-- Python `str.lower()` is idempotent. -/
theorem pyLower_idem (s : List Char) : pyLower (pyLower s) = pyLower s := by
  unfold pyLower
  induction s with
  | nil => rfl
  | cons c cs ih =>
    simp only [List.map_cons]
    rw [char_toLower_idem c, ih]

theorem drop4_www_append (x : List Char) : ("www.".data ++ x).drop 4 = x := rfl

/-- The `rw_crawler.py` variant of `normalize_domain` lower-cases before
stripping one `www.`, so it is idempotent whenever the lower-cased input
does not start with `www.www.`. -/
theorem rw_normalize_idem (d : List Char)
    (hd : py_startswith "www.www.".data (pyLower d) = false) :
    RwCrawler.normalize_domain (RwCrawler.normalize_domain d) =
      RwCrawler.normalize_domain d := by
  by_cases hemp : d.isEmpty = true
  · have hdn : d = [] := by cases d with | nil => rfl | cons a as => simp [List.isEmpty] at hemp
    subst hdn
    rfl
  · by_cases hp : py_startswith "www.".data (pyLower d) = true
    · have h1 : RwCrawler.normalize_domain d = (pyLower d).drop 4 := by
        unfold RwCrawler.normalize_domain
        rw [if_neg hemp, if_pos hp]
      obtain ⟨t, het⟩ := (py_startswith_iff _ _).mp hp
      have hdrop : (pyLower d).drop 4 = t := by rw [het]; rfl
      rw [h1, hdrop]
      have hlowt : pyLower t = t := by
        have hidem : pyLower (pyLower d) = pyLower d := pyLower_idem d
        rw [het] at hidem
        have happ : pyLower ("www.".data ++ t) = pyLower "www.".data ++ pyLower t :=
          List.map_append _ _ _
        rw [happ] at hidem
        have hw : pyLower "www.".data = "www.".data := rfl
        rw [hw] at hidem
        have h5 := congrArg (List.drop 4) hidem
        rw [drop4_www_append, drop4_www_append] at h5
        exact h5
      have hpt : ¬ py_startswith "www.".data t = true := by
        intro hq
        obtain ⟨u, rfl⟩ := (py_startswith_iff _ _).mp hq
        have hww : py_startswith "www.www.".data (pyLower d) = true := by
          rw [het]
          exact (py_startswith_iff _ _).mpr ⟨u, rfl⟩
        rw [hww] at hd
        exact Bool.noConfusion hd
      by_cases htemp : t.isEmpty = true
      · have htn : t = [] := by
          cases t with | nil => rfl | cons a as => simp [List.isEmpty] at htemp
        subst htn
        rfl
      · unfold RwCrawler.normalize_domain
        rw [if_neg htemp, hlowt, if_neg hpt]
    · have h1 : RwCrawler.normalize_domain d = pyLower d := by
        unfold RwCrawler.normalize_domain
        rw [if_neg hemp, if_neg hp]
      rw [h1]
      by_cases heemp : (pyLower d).isEmpty = true
      · unfold RwCrawler.normalize_domain
        rw [if_pos heemp]
      · unfold RwCrawler.normalize_domain
        rw [if_neg heemp, pyLower_idem, if_neg hp]

/-! ## Claim theorems -/

/-- C3 (corrected): `check_robots_txt` decides "disallowed" by plain
substring containment — on a fresh 200 response it returns `false`
exactly when the body contains `"User-agent: *"` as a substring and
`"Disallow: /"` as a substring. Since `"Disallow: /admin"` contains the
substring `"Disallow: /"`, a body with only a path-level rule under
`User-agent: *` is also treated as a full-site disallow. -/
theorem robots_disallow_iff_substrings (domain body : List Char) :
    (check_robots_txt true [] domain (some (200, body))).1 = false ↔
      (∃ pre post, body = pre ++ "User-agent: *".data ++ post) ∧
      (∃ pre post, body = pre ++ "Disallow: /".data ++ post) := by
  rw [← py_contains_iff, ← py_contains_iff]
  simp only [check_robots_txt, Bool.not_true, dictGet]
  by_cases h1 : py_contains "User-agent: *".data body = true
  · by_cases h2 : py_contains "Disallow: /".data body = true
    · simp [h1, h2]
    · simp [h1, h2]
  · simp [h1]

/-- C3 counterexample: a robots.txt body whose only `Disallow` rule is
the path-level `Disallow: /admin` (no full-site `Disallow: /` line)
makes `check_robots_txt` return `false` (crawling disallowed), where the
claim requires `true`. -/
theorem robots_path_level_rule_disallows :
    (check_robots_txt true [] "example.rw".data
        (some (200, "User-agent: *\nDisallow: /admin".data))).1 = false := by
  decide

/-- C4 (corrected): both cited implementations strip exactly one
leading `www.`, so neither is idempotent on every domain string.  The
`crawler.py` variant is idempotent exactly on domains that do not
start with the doubled prefix `www.www.`; the `rw_crawler.py` variant
lower-cases first, so it is idempotent exactly on domains whose
lower-casing does not start with `www.www.` (i.e. that do not start
with the doubled prefix case-insensitively). The claim's two concrete
examples hold for both variants. -/
theorem normalize_domain_idempotent_unless_double_www :
    (∀ d : List Char, py_startswith "www.www.".data d = false →
        normalize_domain (normalize_domain d) = normalize_domain d) ∧
    (∀ d : List Char, py_startswith "www.www.".data (pyLower d) = false →
        RwCrawler.normalize_domain (RwCrawler.normalize_domain d) =
          RwCrawler.normalize_domain d) ∧
    normalize_domain "www.example.rw".data = "example.rw".data ∧
    normalize_domain "example.rw".data = "example.rw".data ∧
    RwCrawler.normalize_domain "www.example.rw".data = "example.rw".data ∧
    RwCrawler.normalize_domain "example.rw".data = "example.rw".data := by
  refine ⟨?_, fun d hd => rw_normalize_idem d hd, by decide, by decide, by decide, by decide⟩
  intro d hd
  by_cases hp : py_startswith "www.".data d = true
  · obtain ⟨t, rfl⟩ := (py_startswith_iff _ _).mp hp
    have hdrop : normalize_domain ("www.".data ++ t) = t := by
      unfold normalize_domain
      rw [if_pos hp]
      rfl
    rw [hdrop]
    have hpt : ¬ py_startswith "www.".data t = true := by
      intro hq
      obtain ⟨u, rfl⟩ := (py_startswith_iff _ _).mp hq
      have hww : py_startswith "www.www.".data ("www.".data ++ ("www.".data ++ u)) = true :=
        (py_startswith_iff _ _).mpr ⟨u, rfl⟩
      rw [hww] at hd
      simp at hd
    simp [normalize_domain, hpt]
  · simp [normalize_domain, hp]

/-- C4 counterexample: applying the `crawler.py` `normalize_domain`
twice to `"www.www.example.rw"` strips two `www.` prefixes; the
`rw_crawler.py` variant lower-cases first, so even
`"WWW.www.example.rw"` — which does not literally start with
`"www.www."` — breaks its idempotence. Neither variant is idempotent
on every domain string. -/
theorem normalize_domain_not_idempotent :
    normalize_domain (normalize_domain "www.www.example.rw".data) ≠
        normalize_domain "www.www.example.rw".data ∧
      RwCrawler.normalize_domain
          (RwCrawler.normalize_domain "WWW.www.example.rw".data) ≠
        RwCrawler.normalize_domain "WWW.www.example.rw".data ∧
      py_startswith "www.www.".data "WWW.www.example.rw".data = false := by
  refine ⟨by decide, by decide, by decide⟩

/-- C4 witness. -/
theorem normalize_domain_idempotent_witness :
    py_startswith "www.www.".data "www.gov.rw".data = false ∧
      normalize_domain (normalize_domain "www.gov.rw".data) =
        normalize_domain "www.gov.rw".data ∧
      py_startswith "www.www.".data (pyLower "WWW.gov.rw".data) = false ∧
      RwCrawler.normalize_domain (RwCrawler.normalize_domain "WWW.gov.rw".data) =
        RwCrawler.normalize_domain "WWW.gov.rw".data :=
  ⟨by decide,
    normalize_domain_idempotent_unless_double_www.1 "www.gov.rw".data (by decide),
    by decide,
    normalize_domain_idempotent_unless_double_www.2.1 "WWW.gov.rw".data (by decide)⟩

/-- C8 (confirmed): on a cache miss, a failed robots.txt fetch (a raised
exception, modeled as `none`) makes `check_robots_txt` return `true` —
unreachability of robots.txt never blocks crawling. -/
theorem robots_fail_open (cache : List (List Char × Bool)) (domain : List Char)
    (h : dictGet cache domain = none) :
    (check_robots_txt true cache domain none).1 = true := by
  simp [check_robots_txt, h]

/-- C8 witness. -/
theorem robots_fail_open_witness :
    dictGet ([] : List (List Char × Bool)) "gov.rw".data = none ∧
      (check_robots_txt true [] "gov.rw".data none).1 = true :=
  ⟨rfl, robots_fail_open [] "gov.rw".data rfl⟩

/-- C5 (corrected): in `get_page_content`, a response with a non-200,
non-429 status aborts immediately with `None` after a single attempt
(no retry); a transport error (raised exception) is retried, so an
error followed by a 200 yields that response's content; and when every
attempt raises, the function returns `None` rather than propagating an
exception. -/
theorem get_page_content_retry_behavior :
    (∀ (s : Nat) (b : List Char) (rest : List FetchAttempt) (n : Nat),
        ¬s = 200 → ¬s = 429 →
          get_page_content (FetchAttempt.response s b :: rest) (n + 1) = none ∧
          get_page_content_attempts (FetchAttempt.response s b :: rest) (n + 1) = 1) ∧
    (∀ (b : List Char) (rest : List FetchAttempt),
        get_page_content (FetchAttempt.failure :: FetchAttempt.response 200 b :: rest) 3 =
          some b) ∧
    (∀ (k n : Nat), get_page_content (List.replicate k FetchAttempt.failure) n = none) := by
  refine ⟨?_, ?_, ?_⟩
  · intro s b rest n h200 h429
    constructor <;>
      simp [get_page_content, get_page_content_attempts, get_page_content_go, h200, h429]
  · intro b rest
    simp [get_page_content, get_page_content_go]
  · intro k
    induction k with
    | zero =>
      intro n
      cases n <;> simp [get_page_content, get_page_content_go, List.replicate]
    | succ m ih =>
      intro n
      cases n with
      | zero => simp [get_page_content, get_page_content_go]
      | succ n' =>
        have := ih n'
        simp only [get_page_content, List.replicate, get_page_content_go] at this ⊢
        simpa using this

/-- C5 counterexample: a 500 response on the first attempt followed by
an available 200 response returns `None` after one attempt — the
non-200/non-429 status is not retried, where the claim requires a
retry and `nil` only after exhausting 3 attempts. -/
theorem get_page_content_no_retry_on_500 :
    get_page_content
        [FetchAttempt.response 500 [], FetchAttempt.response 200 "ok".data] 3 = none ∧
      get_page_content_attempts
        [FetchAttempt.response 500 [], FetchAttempt.response 200 "ok".data] 3 = 1 ∧
      (1 : Nat) < 3 := by
  refine ⟨by decide, by decide, by decide⟩

/-- C5 witness. -/
theorem get_page_content_retry_behavior_witness :
    ¬(404 : Nat) = 200 ∧ ¬(404 : Nat) = 429 ∧
      (get_page_content [FetchAttempt.response 404 []] 3 = none ∧
        get_page_content_attempts [FetchAttempt.response 404 []] 3 = 1) :=
  ⟨by decide, by decide,
    get_page_content_retry_behavior.1 404 [] [] 2 (by decide) (by decide)⟩

/-- C1 (corrected): the seed-crawl, certificate-transparency, subdomain
and `process_url` insertion sites are all guarded (`if normalized_domain
not in self.domain_data`), so they never change an existing catalog
entry; the DNS zone-transfer site, however, assigns unconditionally and
overwrites the entry of an already-cataloged `.rw` domain with the
zone-transfer record. -/
theorem catalog_first_write_wins :
    (∀ (cat : Catalog) (op : DiscoveryOp) (k : List Char) (r : DomainRecord),
        dictGet cat k = some r → op.isZoneTransfer = false →
        dictGet (stepDiscovery cat op) k = some r) ∧
    (∀ (cat : Catalog) (domain ts : List Char), py_endswith ".rw".data domain = true →
        dictGet (stepDiscovery cat (DiscoveryOp.zoneTransfer domain ts))
          (normalize_domain domain) = some (zone_transfer_record domain ts)) := by
  constructor
  · intro cat op k r hk hz
    cases op with
    | crawlPage url t ts =>
      simp only [stepDiscovery]
      split
      · cases extract_domain url with
        | none => exact hk
        | some domain => exact dictGet_setIfAbsent_some _ _ hk
      · exact hk
    | ctLog domain ts => exact dictGet_setIfAbsent_some _ _ hk
    | subdomain domain ts => exact dictGet_setIfAbsent_some _ _ hk
    | zoneTransfer domain ts => simp [DiscoveryOp.isZoneTransfer] at hz
    | processUrl url soup =>
      simp only [stepDiscovery]
      split
      · cases RwCrawler.extract_domain url with
        | none => exact hk
        | some domain => exact dictGet_setIfAbsent_some _ _ hk
      · exact hk
  · intro cat domain ts h
    simp only [stepDiscovery, h]
    exact dictGet_dictSet _ _ _

/-- C1 counterexample: a domain first discovered by the CT-log strategy
and later rediscovered by the zone-transfer strategy ends up mapped to
the zone-transfer record — the later discovery is not a no-op and does
overwrite the earliest record. -/
theorem catalog_zone_transfer_overwrites :
    dictGet (runDiscovery [DiscoveryOp.ctLog "example.rw".data "t1".data,
        DiscoveryOp.zoneTransfer "example.rw".data "t2".data]) "example.rw".data =
      some (zone_transfer_record "example.rw".data "t2".data) ∧
    dictGet (runDiscovery [DiscoveryOp.ctLog "example.rw".data "t1".data,
        DiscoveryOp.zoneTransfer "example.rw".data "t2".data]) "example.rw".data ≠
      dictGet (runDiscovery [DiscoveryOp.ctLog "example.rw".data "t1".data])
        "example.rw".data := by
  refine ⟨by decide, by decide⟩

/-- C1 witness. -/
theorem catalog_first_write_wins_witness :
    dictGet [("a.rw".data, zone_transfer_record "a.rw".data "t0".data)] "a.rw".data =
        some (zone_transfer_record "a.rw".data "t0".data) ∧
      (DiscoveryOp.ctLog "a.rw".data "t1".data).isZoneTransfer = false ∧
      dictGet (stepDiscovery [("a.rw".data, zone_transfer_record "a.rw".data "t0".data)]
          (DiscoveryOp.ctLog "a.rw".data "t1".data)) "a.rw".data =
        some (zone_transfer_record "a.rw".data "t0".data) :=
  ⟨by decide, by decide,
    catalog_first_write_wins.1 [("a.rw".data, zone_transfer_record "a.rw".data "t0".data)]
      (DiscoveryOp.ctLog "a.rw".data "t1".data) "a.rw".data
      (zone_transfer_record "a.rw".data "t0".data) (by decide) (by decide)⟩

/-- C2 (corrected): every flush writes the document directly to the
target path — `open(path, 'w')` truncates in place, then the new
serialization is written — with no temporary path and no rename; an
uninterrupted flush does leave the new document at the target, and the
spec's staged-write scheme (modeled by `atomic_save_ops`) would leave
either the old or the new document at every intermediate point, which
the code's scheme does not. -/
theorem save_flush_behavior :
    (∀ (fs : FsState) (target doc : List Char),
        dictGet (runFsOps fs (save_results_ops target doc)) target = some doc) ∧
    (∀ (fs : FsState) (tmp target doc : List Char), ¬tmp = target → ∀ k, k ≤ 2 →
        dictGet (runFsOps fs (List.take k (atomic_save_ops tmp target doc))) target =
            dictGet fs target ∨
          dictGet (runFsOps fs (List.take k (atomic_save_ops tmp target doc))) target =
            some doc) := by
  constructor
  · intro fs target doc
    simp only [runFsOps, save_results_ops, List.foldl_cons, List.foldl_nil, applyFsOp]
    exact dictGet_dictSet _ _ _
  · intro fs tmp target doc hne k hk
    interval_cases k
    · left; rfl
    · left
      simp only [runFsOps, atomic_save_ops, List.take, List.foldl_cons, List.foldl_nil,
        applyFsOp]
      exact dictGet_dictSet_ne _ _ (fun e => hne e.symm)
    · right
      simp only [runFsOps, atomic_save_ops, List.take, List.foldl_cons, List.foldl_nil,
        applyFsOp]
      rw [dictGet_dictSet]
      rw [dictGet_dictRemove_ne _ (fun e => hne e.symm)]
      exact dictGet_dictSet _ _ _

/-- C2 counterexample: with a valid document persisted at the target,
running only the first step of the flush (the truncating `open`) leaves
the target holding the empty document — neither the previously persisted
document nor the new one survives a kill at that point. -/
theorem save_truncate_loses_old_doc :
    dictGet (runFsOps [("data/rw_domains.json".data, "OLDDOC".data)]
        (List.take 1 (save_results_ops "data/rw_domains.json".data "NEWDOC".data)))
      "data/rw_domains.json".data = some [] ∧
    ¬("OLDDOC".data : List Char) = [] ∧ ¬("NEWDOC".data : List Char) = [] := by
  refine ⟨by decide, by decide, by decide⟩

/-- C2 witness. -/
theorem save_flush_behavior_witness :
    ¬("tmp".data : List Char) = "f".data ∧ (1 : Nat) ≤ 2 ∧
      (dictGet (runFsOps [] (List.take 1 (atomic_save_ops "tmp".data "f".data "doc".data)))
            "f".data = dictGet ([] : FsState) "f".data ∨
        dictGet (runFsOps [] (List.take 1 (atomic_save_ops "tmp".data "f".data "doc".data)))
            "f".data = some "doc".data) :=
  ⟨by decide, by decide,
    save_flush_behavior.2 [] "tmp".data "f".data "doc".data (by decide) 1 (by decide)⟩

/-- C6 (corrected): the batch selector of
`crawlers/rw_crawler.py`'s `process_url_queue` never hands out an item
with `depth ≥ max_depth`; in `rw_crawler.py` the depth bound is applied
only when enqueueing extracted children, so enqueued items reach depth
at most `max_depth` — and, as the counterexample shows, items at
exactly `max_depth` are popped and fetched there. -/
theorem frontier_depth_bound :
    (∀ (md fuel : Nat) (q : List (List Char × Nat)) (v : List (List Char))
        (x : List Char × Nat), x ∈ (pop_batch md fuel q v).1 → x.2 < md) ∧
    (∀ (md depth : Nat) (urls : List (List Char)) (v : List (List Char))
        (q : List (List Char × Nat)) (x : List Char × Nat),
        x ∈ RwCrawler.enqueue_children md depth urls v q → x ∈ q ∨ x.2 ≤ md) := by
  constructor
  · intro md fuel
    induction fuel with
    | zero => intro q v x hx; simp [pop_batch] at hx
    | succ n ih =>
      intro q v x hx
      cases q with
      | nil => simp [pop_batch] at hx
      | cons hd rest =>
        obtain ⟨url, depth⟩ := hd
        simp only [pop_batch] at hx
        split at hx
        · exact ih rest v x hx
        · split at hx
          · exact ih rest v x hx
          · split at hx
            · exact ih rest v x hx
            · split at hx
              · exact ih rest v x hx
              · rcases List.mem_cons.mp hx with h | h
                · subst h
                  exact Nat.lt_of_not_le (by assumption)
                · exact ih rest (url :: v) x h
  · intro md depth urls v q x hx
    unfold RwCrawler.enqueue_children at hx
    split at hx
    · rcases List.mem_append.mp hx with h | h
      · left; exact h
      · right
        obtain ⟨u, _, rfl⟩ := List.mem_map.mp h
        exact Nat.succ_le_of_lt (by assumption)
    · left; exact hx

/-- C6 counterexample: in `rw_crawler.py` with `max_depth = 1`, a child
link extracted at depth 0 is enqueued at depth 1 (= `max_depth`), and
the crawl loop's batch selector hands it to a worker for fetching even
though its depth is not below `max_depth`. -/
theorem rw_crawler_pops_at_max_depth :
    ("https://b.rw".data, 1) ∈
        (RwCrawler.pop_batch 3
          (RwCrawler.enqueue_children 1 0 ["https://b.rw".data] ["https://a.rw".data] [])
          ["https://a.rw".data]).1 ∧
      1 ≤ (1 : Nat) := by
  refine ⟨by decide, by decide⟩

/-- C6 witness. -/
theorem frontier_depth_bound_witness :
    ("https://c.rw".data, 0) ∈ (pop_batch 2 3 [("https://c.rw".data, 0)] []).1 ∧
      (0 : Nat) < 2 :=
  ⟨by decide,
    frontier_depth_bound.1 2 3 [("https://c.rw".data, 0)] [] ("https://c.rw".data, 0)
      (by decide)⟩

/-- C7 (corrected): each implementation enforces only part of the
claimed conjunction — `crawler.py`'s `is_valid_url` requires an
http/https scheme and a non-empty host but never filters extensions,
while `crawler/crawler.py`'s requires an http/https scheme and a path
not ending in a skip-listed extension but never checks the host; both
turn a parse failure into `false` rather than an exception. -/
theorem is_valid_url_partial_checks :
    (∀ (u : List Char) (p : ParseResult), urlparse u = some p → is_valid_url u = true →
        ¬p.netloc = [] ∧ (p.scheme = "http".data ∨ p.scheme = "https".data)) ∧
    (∀ (u : List Char) (p : ParseResult), urlparse u = some p →
        CrawlerPkg.is_valid_url u = true →
        (p.scheme = "http".data ∨ p.scheme = "https".data) ∧
          ∀ ext ∈ CrawlerPkg.skip_extensions, py_endswith ext (pyLower p.path) = false) ∧
    (∀ u : List Char, urlparse u = none →
        is_valid_url u = false ∧ CrawlerPkg.is_valid_url u = false) := by
  refine ⟨?_, ?_, ?_⟩
  · intro u p hp hv
    rw [is_valid_url, hp] at hv
    simp only [Bool.and_eq_true, Bool.or_eq_true, Bool.not_eq_true', beq_iff_eq] at hv
    obtain ⟨⟨hn, -⟩, hs⟩ := hv
    refine ⟨?_, hs⟩
    intro he
    rw [he] at hn
    simp at hn
  · intro u p hp hv
    rw [CrawlerPkg.is_valid_url, hp] at hv
    by_cases h1 : (p.scheme == "http".data || p.scheme == "https".data) = true
    · by_cases h2 : (CrawlerPkg.skip_extensions.any
          (fun ext => py_endswith ext (pyLower p.path))) = true
      · simp [h1, h2] at hv
      · refine ⟨?_, ?_⟩
        · have h1' : p.scheme = "http".data ∨ p.scheme = "https".data := by
            simpa using h1
          exact h1'
        · intro ext hmem
          cases hany : CrawlerPkg.skip_extensions.any
              (fun e => py_endswith e (pyLower p.path)) with
          | true => exact absurd hany h2
          | false =>
            by_contra hne
            have hext : py_endswith ext (pyLower p.path) = true := by
              cases hb : py_endswith ext (pyLower p.path) with
              | true => rfl
              | false => exact absurd hb hne
            have : CrawlerPkg.skip_extensions.any
                (fun e => py_endswith e (pyLower p.path)) = true := by
              refine List.any_eq_true.mpr ⟨ext, hmem, hext⟩
            rw [this] at hany
            exact Bool.noConfusion hany
    · cases hc : (p.scheme == "http".data || p.scheme == "https".data) with
      | true => exact absurd hc h1
      | false => simp [hc] at hv
  · intro u hu
    constructor
    · rw [is_valid_url, hu]
    · rw [CrawlerPkg.is_valid_url, hu]

/-- C7 counterexample: `crawler.py`'s `is_valid_url` accepts a URL whose
path ends in the skip-listed extension `.png`, and
`crawler/crawler.py`'s `is_valid_url` accepts an http URL whose parsed
host is empty — so neither satisfies the full conjunction the claim
states. -/
theorem is_valid_url_missing_checks :
    is_valid_url "https://example.rw/photo.png".data = true ∧
      py_endswith ".png".data (pyLower "/photo.png".data) = true ∧
      ".png".data ∈ CrawlerPkg.skip_extensions ∧
      CrawlerPkg.is_valid_url "http:///x".data = true ∧
      urlparse "http:///x".data =
        some { scheme := "http".data, netloc := [], path := "/x".data } := by
  refine ⟨by decide, by decide, by decide, by decide, by decide⟩

/-- C7 witness. -/
theorem is_valid_url_partial_checks_witness :
    urlparse "https://gov.rw".data =
        some { scheme := "https".data, netloc := "gov.rw".data, path := [] } ∧
      is_valid_url "https://gov.rw".data = true ∧
      (¬("gov.rw".data : List Char) = [] ∧
        ("https".data : List Char) = "http".data ∨
          ("https".data : List Char) = "https".data) :=
  ⟨by decide, by decide, by
    rcases is_valid_url_partial_checks.1 "https://gov.rw".data
        { scheme := "https".data, netloc := "gov.rw".data, path := [] }
        (by decide) (by decide) with ⟨h1, h2⟩
    rcases h2 with h2 | h2
    · exact Or.inl ⟨h1, h2⟩
    · exact Or.inr h2⟩

/-- C9 (corrected): `extract_page_info` omits every absent field — a
missing title/description/keywords tag or an empty h1 list produces no
entry; but the crawl-discovery path of `crawlers/rw_crawler.py`
defaults a missing page title to the placeholder string `"Unknown"` in
the catalog record it stores. -/
theorem extract_page_info_omits_absent (url : List Char) (soup : PageSoup) :
    (soup.title = none → (extract_page_info url soup).title = none) ∧
    (soup.metaDescription = none → (extract_page_info url soup).description = none) ∧
    (soup.metaKeywords = none → (extract_page_info url soup).keywords = none) ∧
    (soup.h1s = [] → (extract_page_info url soup).h1_tags = none) := by
  refine ⟨?_, ?_, ?_, ?_⟩ <;> intro h <;> simp [extract_page_info, h]

/-- C9 counterexample: a `.rw` page whose markup has no `<title>` is
cataloged by `crawlers/rw_crawler.py` with the placeholder title
`"Unknown"` rather than with the field omitted. -/
theorem crawl_page_title_placeholder :
    dictGet (runDiscovery [DiscoveryOp.crawlPage "https://x.rw".data none "t".data])
        "x.rw".data =
      some { domain := "x.rw".data, url := "https://x.rw".data,
             title := some "Unknown".data, description := none, keywords := none,
             h1_tags := none, discovered_at := some "t".data } := by
  decide

/-- C9 witness. -/
theorem extract_page_info_omits_absent_witness :
    (extract_page_info [] ⟨none, none, none, []⟩).title = none ∧
      (extract_page_info [] ⟨none, none, none, []⟩).h1_tags = none :=
  ⟨(extract_page_info_omits_absent [] ⟨none, none, none, []⟩).1 rfl,
    (extract_page_info_omits_absent [] ⟨none, none, none, []⟩).2.2.2 rfl⟩

/-- Every insertion site writes a record whose `domain` field equals the
key it is stored under; one discovery step therefore preserves the key
coherence of the catalog. -/
theorem stepDiscovery_coherent (cat : Catalog) (op : DiscoveryOp)
    (h : ∀ kv ∈ cat, (kv : List Char × DomainRecord).2.domain = kv.1) :
    ∀ kv ∈ stepDiscovery cat op, kv.2.domain = kv.1 := by
  intro kv hkv
  cases op with
  | crawlPage url t ts =>
    simp only [stepDiscovery] at hkv
    split at hkv
    · cases hd : extract_domain url with
      | none => rw [hd] at hkv; exact h kv hkv
      | some domain =>
        rw [hd] at hkv
        rcases mem_dictSetIfAbsent hkv with hm | hm
        · exact h kv hm
        · subst hm; rfl
    · exact h kv hkv
  | ctLog domain ts =>
    rcases mem_dictSetIfAbsent hkv with hm | hm
    · exact h kv hm
    · subst hm; rfl
  | subdomain domain ts =>
    rcases mem_dictSetIfAbsent hkv with hm | hm
    · exact h kv hm
    · subst hm; rfl
  | zoneTransfer domain ts =>
    simp only [stepDiscovery] at hkv
    split at hkv
    · rcases mem_dictSet hkv with hm | hm
      · exact h kv hm
      · subst hm; rfl
    · exact h kv hkv
  | processUrl url soup =>
    simp only [stepDiscovery] at hkv
    split at hkv
    · cases hd : RwCrawler.extract_domain url with
      | none => rw [hd] at hkv; exact h kv hkv
      | some domain =>
        rw [hd] at hkv
        rcases mem_dictSetIfAbsent hkv with hm | hm
        · exact h kv hm
        · subst hm; rfl
    · exact h kv hkv

/-- Key coherence is preserved along any fold of discovery steps. -/
theorem foldDiscovery_coherent :
    ∀ (ops : List DiscoveryOp) (cat : Catalog),
      (∀ kv ∈ cat, (kv : List Char × DomainRecord).2.domain = kv.1) →
      ∀ kv ∈ List.foldl stepDiscovery cat ops, kv.2.domain = kv.1 := by
  intro ops
  induction ops with
  | nil => intro cat h kv hkv; exact h kv (by simpa using hkv)
  | cons op rest ih =>
    intro cat h kv hkv
    exact ih _ (stepDiscovery_coherent cat op h) kv (by simpa using hkv)

/-- C10 (confirmed): after any sequence of catalog-inserting discovery
operations (seed crawl, CT query, subdomain enumeration, zone transfer,
`process_url`), every key of the catalog equals the `domain` field of
the record it maps to. -/
theorem catalog_key_coherence (ops : List DiscoveryOp) (kv : List Char × DomainRecord)
    (h : kv ∈ runDiscovery ops) : kv.2.domain = kv.1 :=
  foldDiscovery_coherent ops [] (by simp) kv h

/-- C10 witness. -/
theorem catalog_key_coherence_witness :
    ("x.rw".data,
        ({ domain := "x.rw".data, url := "https://x.rw".data,
           title := some "Found via Certificate Transparency logs".data,
           description := none, keywords := none, h1_tags := none,
           discovered_at := some "t".data } : DomainRecord)) ∈
      runDiscovery [DiscoveryOp.ctLog "x.rw".data "t".data] ∧
    ({ domain := "x.rw".data, url := "https://x.rw".data,
       title := some "Found via Certificate Transparency logs".data,
       description := none, keywords := none, h1_tags := none,
       discovered_at := some "t".data } : DomainRecord).domain = "x.rw".data :=
  ⟨by decide,
    catalog_key_coherence [DiscoveryOp.ctLog "x.rw".data "t".data]
      ("x.rw".data,
        { domain := "x.rw".data, url := "https://x.rw".data,
          title := some "Found via Certificate Transparency logs".data,
          description := none, keywords := none, h1_tags := none,
          discovered_at := some "t".data }) (by decide)⟩

end WebCrawler
